import Mathlib

/-!
# Verification of the chromium-bidi mapper core

A shallow embedding of the repository's `SubscriptionManager`
(`domains/events/SubscriptionManager.ts`) together with spec-modelled
versions of the network utilities and the log-message formatter whose
implementations are not part of the source tree (only their unit tests
are).  JavaScript `Map` objects are embedded as insertion-ordered
association lists, JavaScript `Set` objects as insertion-ordered
duplicate-free lists, and exceptions as `Except` / explicit error
components.
-/

namespace ChromiumBidi

/-! ## Association lists modelling JavaScript `Map`

A JS `Map` preserves insertion order; `set` on an existing key keeps the
key's position, `set` on a fresh key appends, `delete` removes the entry.
-/

section AList

variable {α : Type} {β : Type} [DecidableEq α]

/-- `Map.get`: value of the first (and, for genuine maps, only) entry. -/
def alGet : List (α × β) → α → Option β
  | [], _ => none
  | (k, v) :: rest, a => if k = a then some v else alGet rest a

/-- `Map.has`. -/
def alHas (m : List (α × β)) (a : α) : Bool :=
  (alGet m a).isSome

/-- `Map.set`: replace in place when present, append when absent. -/
def alSet : List (α × β) → α → β → List (α × β)
  | [], a, b => [(a, b)]
  | (k, v) :: rest, a, b =>
    if k = a then (k, b) :: rest else (k, v) :: alSet rest a b

/-- `Map.delete`: remove the entry with the given key. -/
def alDelete (m : List (α × β)) (a : α) : List (α × β) :=
  m.filter (fun e => decide (e.1 ≠ a))

end AList

/-! ## Protocol event names

Modelled from the spec: the event enumerations come from the
auto-generated BiDi type definitions, which the spec treats as a fixed
schema (§1, §6) and which are not part of the source tree.  Group events
(`AllEvents`) are the module prefixes; the exact membership of the atomic
lists does not affect the verified claims.
-/

abbrev EventName := String
abbrev ContextId := String
/-- `channel` argument: `null` (no channel) or a channel name. -/
abbrev Channel := Option String

def browsingContextAllEvents : EventName := "browsingContext"

def browsingContextEventNames : List EventName :=
  ["browsingContext.contextCreated", "browsingContext.contextDestroyed",
   "browsingContext.domContentLoaded", "browsingContext.fragmentNavigated",
   "browsingContext.load", "browsingContext.navigationStarted",
   "browsingContext.userPromptClosed", "browsingContext.userPromptOpened"]

def logAllEvents : EventName := "log"

def logEventNames : List EventName := ["log.entryAdded"]

def networkAllEvents : EventName := "network"

def networkEventNames : List EventName :=
  ["network.beforeRequestSent", "network.fetchError",
   "network.responseCompleted", "network.responseStarted"]

def scriptAllEvents : EventName := "script"

def scriptEventNames : List EventName :=
  ["script.message", "script.realmCreated", "script.realmDestroyed"]

/-! ## `cartesianProduct` and `unrollEvents` (SubscriptionManager.ts) -/

/-- `cartesianProduct(a, b)` for two arrays:
`a.flatMap((d) => b.map((e) => [d, e]))`. -/
def cartesianProduct (a : List α) (b : List β) : List (α × β) :=
  a.flatMap (fun d => b.map (fun e => (d, e)))

/-- JS `Set.add`: insertion-ordered, ignores duplicates. -/
def setAdd (l : List EventName) (e : EventName) : List EventName :=
  if e ∈ l then l else l ++ [e]

/-- The inner `addEvents` helper: add every event of the list to the set. -/
def addEvents (l : List EventName) (events : List EventName) : List EventName :=
  events.foldl setAdd l

/-- Expands "AllEvents" events into atomic events
(`unrollEvents` in SubscriptionManager.ts). -/
def unrollEvents (events : List EventName) : List EventName :=
  events.foldl
    (fun allEvents event =>
      if event = browsingContextAllEvents then
        addEvents allEvents browsingContextEventNames
      else if event = logAllEvents then addEvents allEvents logEventNames
      else if event = networkAllEvents then addEvents allEvents networkEventNames
      else if event = scriptAllEvents then addEvents allEvents scriptEventNames
      else setAdd allEvents event)
    []

/-! ## Browsing-context storage (external collaborator)

Modelled from the spec: `BrowsingContextStorage` is not part of the source
tree.  The spec (§4.2) gives it `get(id)→Context|error` — failing with
`no such frame` for an unknown context id (§7) — and `findTopLevel(id)→id`.
The embedding keeps just the two observations the SubscriptionManager
uses: the top-level-ancestor map and the known-context predicate.
-/

structure BrowsingContextStorage where
  topLevelOf : ContextId → ContextId
  isKnown : ContextId → Bool

/-- `findTopLevelContextId`: `null` stays `null`, otherwise the top-level
ancestor. -/
def findTopLevelContextId (s : BrowsingContextStorage) :
    Option ContextId → Option ContextId
  | none => none
  | some id => some (s.topLevelOf id)

/-! ## SubscriptionManager state -/

abbrev EventMap := List (EventName × Nat)
abbrev ContextMap := List (Option ContextId × EventMap)
abbrev ChannelMap := List (Channel × ContextMap)

structure SubscriptionManager where
  subscriptionPriority : Nat
  channelToContextToEventMap : ChannelMap
  deriving Repr, DecidableEq

def SubscriptionManager.empty : SubscriptionManager :=
  { subscriptionPriority := 0, channelToContextToEventMap := [] }

inductive MapperError
  | invalidArgument (message : String)
  | noSuchFrame (context : ContextId)
  deriving Repr, DecidableEq

/-- The `InvalidArgumentException` message built by `#checkUnsubscribe`. -/
def unsubscribeErrorMessage (event : EventName) (contextId : Option ContextId) :
    String :=
  "Cannot unsubscribe from " ++ event ++ ", " ++
    (match contextId with
     | none => "null"
     | some c => c) ++ ". No subscription found."

/-- The body of `subscribe` after the `AllEvents` dispatch: ensure the
channel and context entries exist, then either keep the existing priority
or mint the next one (`#subscriptionPriority++`). -/
def subscribeAtomicRaw (st : SubscriptionManager) (event : EventName)
    (contextId : Option ContextId) (channel : Channel) : SubscriptionManager :=
  let contextToEventMap := (alGet st.channelToContextToEventMap channel).getD []
  let eventMap := (alGet contextToEventMap contextId).getD []
  -- Do not re-subscribe to events to keep the priority.
  if alHas eventMap event then st
  else
    { subscriptionPriority := st.subscriptionPriority + 1
      channelToContextToEventMap :=
        alSet st.channelToContextToEventMap channel
          (alSet contextToEventMap contextId
            (alSet eventMap event st.subscriptionPriority)) }

/-- One recursive call `this.subscribe(specificEvent, contextId, channel)`
made by the `AllEvents` branches: the constituent events are atomic, so it
normalizes the context again and falls through to the atomic body. -/
def subscribeAtomic (s : BrowsingContextStorage) (st : SubscriptionManager)
    (event : EventName) (contextId : Option ContextId) (channel : Channel) :
    SubscriptionManager :=
  subscribeAtomicRaw st event (findTopLevelContextId s contextId) channel

/-- `SubscriptionManager.subscribe`. -/
def subscribe (s : BrowsingContextStorage) (st : SubscriptionManager)
    (event : EventName) (contextId : Option ContextId) (channel : Channel) :
    SubscriptionManager :=
  -- All the subscriptions are handled on the top-level contexts.
  let contextId := findTopLevelContextId s contextId
  if event = browsingContextAllEvents then
    browsingContextEventNames.foldl
      (fun acc e => subscribeAtomic s acc e contextId channel) st
  else if event = logAllEvents then
    logEventNames.foldl (fun acc e => subscribeAtomic s acc e contextId channel) st
  else if event = networkAllEvents then
    networkEventNames.foldl
      (fun acc e => subscribeAtomic s acc e contextId channel) st
  else if event = scriptAllEvents then
    scriptEventNames.foldl
      (fun acc e => subscribeAtomic s acc e contextId channel) st
  else subscribeAtomicRaw st event contextId channel

/-- `#getEventSubscriptionPriorityForChannel`. -/
def getEventSubscriptionPriorityForChannel (s : BrowsingContextStorage)
    (st : SubscriptionManager) (eventMethod : EventName)
    (contextId : Option ContextId) (channel : Channel) : Option Nat :=
  match alGet st.channelToContextToEventMap channel with
  | none => none
  | some contextToEventMap =>
    let maybeTopLevelContextId := findTopLevelContextId s contextId
    -- `[...new Set([null, maybeTopLevelContextId])]`
    let relevantContexts : List (Option ContextId) :=
      match maybeTopLevelContextId with
      | none => [none]
      | some t => [none, some t]
    let priorities := relevantContexts.filterMap
      (fun c => (alGet contextToEventMap c).bind (fun em => alGet em eventMethod))
    match priorities with
    | [] => none
    | p :: ps => some (ps.foldl Nat.min p)

/-- Stable-enough insertion step for sorting by priority.  In every state
reachable from the empty manager distinct channels carry distinct
priorities, so tie order — the only place a stable JS `Array.sort`
could differ — never matters. -/
def insertByPriority (p : Nat × Channel) :
    List (Nat × Channel) → List (Nat × Channel)
  | [] => [p]
  | q :: rest => if p.1 < q.1 then p :: q :: rest else q :: insertByPriority p rest

def sortByPriority : List (Nat × Channel) → List (Nat × Channel)
  | [] => []
  | p :: rest => insertByPriority p (sortByPriority rest)

/-- `getChannelsSubscribedToEvent`. -/
def getChannelsSubscribedToEvent (s : BrowsingContextStorage)
    (st : SubscriptionManager) (eventMethod : EventName)
    (contextId : Option ContextId) : List Channel :=
  let prioritiesAndChannels :=
    (st.channelToContextToEventMap.map Prod.fst).filterMap
      (fun channel =>
        (getEventSubscriptionPriorityForChannel s st eventMethod contextId
            channel).map
          (fun priority => (priority, channel)))
  -- Sort channels by priority.
  (sortByPriority prioritiesAndChannels).map Prod.snd

/-- `#checkUnsubscribe`: validate that the (event, context) pair is
subscribed under the channel; on success return the data the deferred
delete closure needs (the event and the normalized context id). -/
def checkUnsubscribe (s : BrowsingContextStorage) (st : SubscriptionManager)
    (event : EventName) (contextId : Option ContextId) (channel : Channel) :
    Except MapperError (EventName × Option ContextId) :=
  -- All the subscriptions are handled on the top-level contexts.
  let contextId := findTopLevelContextId s contextId
  match alGet st.channelToContextToEventMap channel with
  | none => .error (.invalidArgument (unsubscribeErrorMessage event contextId))
  | some contextToEventMap =>
    match alGet contextToEventMap contextId with
    | none => .error (.invalidArgument (unsubscribeErrorMessage event contextId))
    | some eventMap =>
      if alHas eventMap event then .ok (event, contextId)
      else .error (.invalidArgument (unsubscribeErrorMessage event contextId))

/-- The delete closure returned by `#checkUnsubscribe`.  Note the source's
cleanup step is `contextToEventMap.delete(event)` — it deletes the key
`event` from a map keyed by context ids — which the embedding reproduces
verbatim. -/
def applyUnsubscribe (st : SubscriptionManager)
    (d : EventName × Option ContextId) (channel : Channel) :
    SubscriptionManager :=
  let event := d.1
  let contextId := d.2
  match alGet st.channelToContextToEventMap channel with
  | none => st
  | some contextToEventMap =>
    match alGet contextToEventMap contextId with
    | none => st
    | some eventMap =>
      let eventMap := alDelete eventMap event
      let contextToEventMap := alSet contextToEventMap contextId eventMap
      -- Clean up maps if empty.
      let contextToEventMap :=
        if eventMap.length = 0 then alDelete contextToEventMap (some event)
        else contextToEventMap
      let channelMap :=
        alSet st.channelToContextToEventMap channel contextToEventMap
      let channelMap :=
        if contextToEventMap.length = 0 then alDelete channelMap channel
        else channelMap
      { st with channelToContextToEventMap := channelMap }

/-- The `// Assert all contexts are known.` loop: first non-null context
the storage does not know, if any. -/
def firstUnknownContext (s : BrowsingContextStorage) :
    List (Option ContextId) → Option ContextId
  | [] => none
  | none :: rest => firstUnknownContext s rest
  | some id :: rest =>
    if s.isKnown id then firstUnknownContext s rest else some id

/-- The `eventContextPairs.map(... #checkUnsubscribe ...)` phase: every
check runs against the pre-call state; the first failure aborts the call. -/
def checkAll (s : BrowsingContextStorage) (st : SubscriptionManager)
    (pairs : List (EventName × Option ContextId)) (channel : Channel) :
    Except MapperError (List (EventName × Option ContextId)) :=
  match pairs with
  | [] => .ok []
  | p :: rest =>
    match checkUnsubscribe s st p.1 p.2 channel with
    | .error e => .error e
    | .ok d =>
      match checkAll s st rest channel with
      | .error e => .error e
      | .ok ds => .ok (d :: ds)

/-- `unsubscribeAll`.  The manager object survives a thrown exception, so
the result carries the (then unchanged) state next to the error. -/
def unsubscribeAll (s : BrowsingContextStorage) (st : SubscriptionManager)
    (events : List EventName) (contextIds : List (Option ContextId))
    (channel : Channel) : SubscriptionManager × Option MapperError :=
  -- Assert all contexts are known.
  match firstUnknownContext s contextIds with
  | some id => (st, some (.noSuchFrame id))
  | none =>
    let eventContextPairs := cartesianProduct (unrollEvents events) contextIds
    -- Assert all unsubscriptions are valid.
    -- If any of the unsubscriptions are invalid, do not unsubscribe from
    -- anything.
    match checkAll s st eventContextPairs channel with
    | .error e => (st, some e)
    | .ok ds =>
      (ds.foldl (fun acc d => applyUnsubscribe acc d channel) st, none)

/-! ## Observation helpers -/

/-- Whether `(event, context)` is subscribed under `channel`; context ids
are looked up through their top-level ancestor, exactly as `subscribe`
records them and `#checkUnsubscribe` validates them. -/
def hasSubscription (s : BrowsingContextStorage) (st : SubscriptionManager)
    (channel : Channel) (event : EventName) (contextId : Option ContextId) :
    Bool :=
  match alGet st.channelToContextToEventMap channel with
  | none => false
  | some contextToEventMap =>
    match alGet contextToEventMap (findTopLevelContextId s contextId) with
    | none => false
    | some eventMap => alHas eventMap event

/-- The priority stored for `event` under the raw context key `ctxKey` of
`channel`, if any. -/
def subscriptionPriorityAt (st : SubscriptionManager) (channel : Channel)
    (ctxKey : Option ContextId) (event : EventName) : Option Nat :=
  (alGet st.channelToContextToEventMap channel).bind
    (fun contextToEventMap =>
      (alGet contextToEventMap ctxKey).bind (fun em => alGet em event))

/-- The atomic events one entry of the request list contributes: the
constituent lists for the four group events, the singleton otherwise. -/
def expandEvent (event : EventName) : List EventName :=
  if event = browsingContextAllEvents then browsingContextEventNames
  else if event = logAllEvents then logEventNames
  else if event = networkAllEvents then networkEventNames
  else if event = scriptAllEvents then scriptEventNames
  else [event]

/-! ## Network utilities

NetworkUtils.ts is not part of the source tree; only its unit tests are
(`NetworkUtils.spec.ts`).  The definitions below are therefore modelled
from the spec (§4.3) and checked against those tests.
-/

/-- A BiDi network header with a string-typed value. -/
structure Header where
  name : String
  value : String
  deriving Repr, DecidableEq

/-- Modelled from the spec: `computeHeadersSize` (NetworkUtils.ts, absent
from the source tree).  Spec §4.3: "Σ over headers of len(name) +
len(': ') + len(value) + len('\r\n'); empty list yields 0". -/
def computeHeadersSize (headers : List Header) : Nat :=
  headers.foldl
    (fun acc header => acc + (header.name.length + 2 + header.value.length + 2))
    0

/-- The components of an already-parsed request URL (URL parsing itself is
done by the platform `URL` class, outside this repository).  As in the
platform class, `search` carries its leading question mark. -/
structure UrlComponents where
  protocol : String
  hostname : String
  port : String
  pathname : String
  search : String
  deriving Repr, DecidableEq

/-- A `{type: "pattern"}` URL pattern: absent fields are wildcards. -/
structure UrlPatternStruct where
  protocol : Option String := none
  hostname : Option String := none
  port : Option String := none
  pathname : Option String := none
  search : Option String := none
  deriving Repr, DecidableEq

/-- Lower-case a string character by character (ASCII suffices for URL
components); defined on the character list so it evaluates by reduction. -/
def lowerString (s : String) : String :=
  String.mk (s.data.map Char.toLower)

/-- Strip one leading question mark, for comparing `search` components. -/
def stripQuestionMark (s : String) : String :=
  match s.data with
  | '?' :: rest => String.mk rest
  | _ => s

/-- Modelled from the spec: structured-pattern branch of `matchUrlPattern`
(NetworkUtils.ts, absent from the source tree).  Spec §4.3: "each present
field (protocol, hostname, port, pathname, search) must equal the
corresponding component of the request URL. hostname comparison is
case-insensitive. search is compared with leading '?' stripped from both
sides. Absent fields are wildcards." -/
def matchUrlPattern (pattern : UrlPatternStruct) (url : UrlComponents) : Bool :=
  (match pattern.protocol with
   | none => true
   | some v => v = url.protocol) &&
  (match pattern.hostname with
   | none => true
   | some v => lowerString v = lowerString url.hostname) &&
  (match pattern.port with
   | none => true
   | some v => v = url.port) &&
  (match pattern.pathname with
   | none => true
   | some v => v = url.pathname) &&
  (match pattern.search with
   | none => true
   | some v => stripQuestionMark v = stripQuestionMark url.search)

/-- A JavaScript number input to `getTiming`: NaN or a finite rational. -/
inductive JsNumber
  | nan
  | finite (q : ℚ)
  deriving Repr, DecidableEq

/-- Modelled from the spec: `getTiming` (NetworkUtils.ts, absent from the
source tree).  Spec §8.6: "getTiming(x) equals max(0, floor(x)) for finite
x; 0 for undefined/negative/NaN" (`max(0, ⌊x⌋)` is 0 for negative x, so
this also satisfies §4.3's "coerced to a non-negative finite number"). -/
def getTiming : Option JsNumber → Int
  | none => 0
  | some JsNumber.nan => 0
  | some (JsNumber.finite q) => max 0 ⌊q⌋

/-! ## Log-message formatter

logHelper.ts is not part of the source tree; only its unit tests are
(`logHelper.spec.ts`).  The definitions below are modelled from the spec
(§4.5) and checked against those tests, restricted to string and number
remote values — the only ones the claim involves.
-/

inductive RemoteValue
  | str (value : String)
  | num (value : Int)
  deriving Repr, DecidableEq

/-- `%s`-style coercion of a remote value to text. -/
def stringFromArg : RemoteValue → String
  | RemoteValue.str v => v
  | RemoteValue.num n => toString n

/-- `getRemoteValuesText(args, false)`: the arguments space-separated. -/
def getRemoteValuesText (args : List RemoteValue) : String :=
  String.intercalate " " (args.map stringFromArg)

/-- One token of a format string: a literal chunk or a format specifier
(one of s, d, i, f, o, O, c). -/
inductive FormatToken
  | lit (s : String)
  | spec (c : Char)
  deriving Repr, DecidableEq

def isSpecifierChar (c : Char) : Bool :=
  c = 's' || c = 'd' || c = 'i' || c = 'f' || c = 'o' || c = 'O' || c = 'c'

/-- Split a format string on `%s`, `%d`, `%i`, `%f`, `%o`, `%O`, `%c`.
`acc` holds the pending literal chunk (in reverse). -/
def tokenizeFormat (acc : List Char) : List Char → List FormatToken
  | [] => if acc.isEmpty then [] else [FormatToken.lit (String.mk acc.reverse)]
  | '%' :: c :: rest =>
    if isSpecifierChar c then
      (if acc.isEmpty then [] else [FormatToken.lit (String.mk acc.reverse)]) ++
        FormatToken.spec c :: tokenizeFormat [] rest
    else tokenizeFormat ('%' :: acc) (c :: rest)
  | c :: rest => tokenizeFormat (c :: acc) rest

/-- Conversion of one consumed value for one specifier; the claim only
exercises number values, for which every specifier but `%s` prints the
integer. -/
def applySpecifier (c : Char) (v : RemoteValue) : String :=
  if c = 's' then stringFromArg v
  else
    match v with
    | RemoteValue.num n => toString n
    | RemoteValue.str sv =>
      if c = 'd' || c = 'i' || c = 'f' then
        match sv.toInt? with
        | some n => toString n
        | none => "NaN"
      else "\"" ++ sv ++ "\""

/-- The formatter loop: literals are copied, each specifier consumes one
value; running out of values throws `Less value is provided`, leftover
values throw `More value is provided`, both quoting the original
arguments rendered by `getRemoteValuesText`. -/
def formatLoop (allText : String) :
    List FormatToken → List RemoteValue → String → Except String String
  | [], [], output => .ok output
  | [], _ :: _, _ =>
    .error ("More value is provided: \"" ++ allText ++ "\"")
  | FormatToken.lit s :: rest, values, output =>
    formatLoop allText rest values (output ++ s)
  | FormatToken.spec _ :: _, [], _ =>
    .error ("Less value is provided: \"" ++ allText ++ "\"")
  | FormatToken.spec c :: rest, v :: values, output =>
    formatLoop allText rest values (output ++ applySpecifier c v)

/-- Modelled from the spec: `logMessageFormatter` (logHelper.ts, absent
from the source tree).  Spec §4.5 and the repository tests: format
specifiers in the first argument consume successive values; "too few
values throws less value is provided; too many throws more value is
provided", with the message quoting the original arguments
space-separated. -/
def logMessageFormatter (args : List RemoteValue) : Except String String :=
  match args with
  | [] => .error "TypeError: no format argument"
  | first :: values =>
    formatLoop (getRemoteValuesText args)
      (tokenizeFormat [] (stringFromArg first).toList) values ""

/-- Number of format specifiers in a token list. -/
def countSpecifiers (tokens : List FormatToken) : Nat :=
  tokens.countP (fun t =>
    match t with
    | FormatToken.spec _ => true
    | FormatToken.lit _ => false)

/-! ## Concrete instances used by witnesses and counterexamples -/

/-- A storage in which every context is known and top-level. -/
def flatStorage : BrowsingContextStorage :=
  { topLevelOf := fun c => c, isKnown := fun _ => true }

/-- A storage that knows no context at all. -/
def emptyStorage : BrowsingContextStorage :=
  { topLevelOf := fun c => c, isKnown := fun _ => false }

/-- One subscription: `subscribe('log.entryAdded', 'ctx1', 'ch')`. -/
def oneSubState : SubscriptionManager :=
  subscribe flatStorage SubscriptionManager.empty "log.entryAdded"
    (some "ctx1") (some "ch")

/-- The same single subscription recorded while `ctx1` was known, paired
below with `emptyStorage` to exercise the context assertion. -/
def ghostSubState : SubscriptionManager :=
  subscribe emptyStorage SubscriptionManager.empty "log.entryAdded"
    (some "ghost") (some "ch")

/-- A channel holding, for event `e`, a global subscription (priority 5)
and a subscription on top-level context `t` (priority 3). -/
def twoPriorityState : SubscriptionManager :=
  { subscriptionPriority := 6
    channelToContextToEventMap :=
      [(some "ch", [(none, [("e", 5)]), (some "t", [("e", 3)])])] }

/-- A storage mapping every context to the top-level context `t`. -/
def toTStorage : BrowsingContextStorage :=
  { topLevelOf := fun _ => "t", isKnown := fun _ => true }

/-- The guard `eventMap.has(event)` of `subscribe`, as an observation of
the whole store: whether `(event, ctxKey)` is recorded under `channel`
(with `ctxKey` a raw, already-normalized map key). -/
def subRecorded (st : SubscriptionManager) (channel : Channel)
    (ctxKey : Option ContextId) (event : EventName) : Bool :=
  alHas
    ((alGet ((alGet st.channelToContextToEventMap channel).getD []) ctxKey).getD
      [])
    event

/-- Whether `channel` holds a subscription to `event` whose context key is
`null` (global) or the top-level ancestor of `contextId`. -/
def channelMatches (s : BrowsingContextStorage) (st : SubscriptionManager)
    (event : EventName) (contextId : Option ContextId) (channel : Channel) :
    Bool :=
  (subscriptionPriorityAt st channel none event).isSome ||
    (subscriptionPriorityAt st channel (findTopLevelContextId s contextId)
        event).isSome

/-- The sort key `getChannelsSubscribedToEvent` orders a channel by,
defaulted to 0 for channels that do not appear. -/
def priorityOf (s : BrowsingContextStorage) (st : SubscriptionManager)
    (event : EventName) (contextId : Option ContextId) (channel : Channel) :
    Nat :=
  (getEventSubscriptionPriorityForChannel s st event contextId channel).getD 0

/-- Whether an error slot holds an `invalid argument` error. -/
def isInvalidArgument : Option MapperError → Bool
  | some (MapperError.invalidArgument _) => true
  | _ => false

/-! # Theorems -/

section AListLemmas

variable {α : Type} {β : Type} [DecidableEq α]

@[simp] theorem alGet_nil (a : α) : alGet ([] : List (α × β)) a = none := rfl

@[simp] theorem alGet_cons (k : α) (v : β) (rest : List (α × β)) (a : α) :
    alGet ((k, v) :: rest) a = if k = a then some v else alGet rest a := rfl

@[simp] theorem alGet_alSet_self (m : List (α × β)) (a : α) (b : β) :
    alGet (alSet m a b) a = some b := by
  induction m with
  | nil => simp [alSet]
  | cons e rest ih =>
    obtain ⟨k, v⟩ := e
    by_cases h : k = a <;> simp [alSet, h, ih]

theorem alGet_alSet_other (m : List (α × β)) (a a' : α) (b : β) (h : a ≠ a') :
    alGet (alSet m a b) a' = alGet m a' := by
  induction m with
  | nil => simp [alSet, h]
  | cons e rest ih =>
    obtain ⟨k, v⟩ := e
    by_cases hk : k = a
    · subst hk
      simp [alSet, h]
    · simp [alSet, hk, ih]

@[simp] theorem alDelete_nil (a : α) : alDelete ([] : List (α × β)) a = [] := rfl

theorem alDelete_cons (k : α) (v : β) (rest : List (α × β)) (a : α) :
    alDelete ((k, v) :: rest) a =
      if k = a then alDelete rest a else (k, v) :: alDelete rest a := by
  by_cases h : k = a <;> simp [alDelete, List.filter_cons, h]

theorem alGet_alDelete_self (m : List (α × β)) (a : α) :
    alGet (alDelete m a) a = none := by
  induction m with
  | nil => simp
  | cons e rest ih =>
    obtain ⟨k, v⟩ := e
    by_cases h : k = a <;> simp [alDelete_cons, h, ih]

theorem alGet_alDelete_other (m : List (α × β)) (a a' : α) (h : a ≠ a') :
    alGet (alDelete m a) a' = alGet m a' := by
  induction m with
  | nil => simp
  | cons e rest ih =>
    obtain ⟨k, v⟩ := e
    by_cases hk : k = a
    · subst hk
      simp [alDelete_cons, h, ih]
    · simp [alDelete_cons, hk, ih]

theorem alGet_isSome_mem_keys {m : List (α × β)} {a : α}
    (h : (alGet m a).isSome) : a ∈ m.map Prod.fst := by
  induction m with
  | nil => simp [alGet] at h
  | cons e rest ih =>
    obtain ⟨k, v⟩ := e
    by_cases hk : k = a
    · simp [hk]
    · simp [alGet, hk] at h
      simp [ih h]

@[simp] theorem alHas_alSet_self (m : List (α × β)) (a : α) (b : β) :
    alHas (alSet m a b) a = true := by
  simp [alHas]

theorem alHas_alSet_other (m : List (α × β)) (a a' : α) (b : β) (h : a ≠ a') :
    alHas (alSet m a b) a' = alHas m a' := by
  simp [alHas, alGet_alSet_other m a a' b h]


end AListLemmas

/-! ## `unrollEvents` lemmas -/

theorem mem_setAdd (x e : EventName) (l : List EventName) :
    x ∈ setAdd l e ↔ x ∈ l ∨ x = e := by
  unfold setAdd
  split
  · rename_i h
    constructor
    · exact Or.inl
    · rintro (hx | rfl)
      · exact hx
      · exact h
  · simp

theorem nodup_setAdd (e : EventName) (l : List EventName) (h : l.Nodup) :
    (setAdd l e).Nodup := by
  unfold setAdd
  split
  · exact h
  · rename_i he
    simp [List.nodup_append, h, he]

theorem mem_addEvents (x : EventName) (l L : List EventName) :
    x ∈ addEvents l L ↔ x ∈ l ∨ x ∈ L := by
  induction L generalizing l with
  | nil => simp [addEvents]
  | cons e rest ih =>
    rw [show addEvents l (e :: rest) = addEvents (setAdd l e) rest from rfl, ih,
      mem_setAdd]
    simp only [List.mem_cons]
    tauto

theorem nodup_addEvents (l L : List EventName) (h : l.Nodup) :
    (addEvents l L).Nodup := by
  induction L generalizing l with
  | nil => exact h
  | cons e rest ih =>
    rw [show addEvents l (e :: rest) = addEvents (setAdd l e) rest from rfl]
    exact ih _ (nodup_setAdd e l h)

theorem unrollEvents_eq_foldl_expand (events : List EventName) :
    unrollEvents events =
      events.foldl (fun acc e => addEvents acc (expandEvent e)) [] := by
  unfold unrollEvents expandEvent
  congr 1
  funext acc e
  split_ifs <;> rfl

theorem mem_unrollFold (x : EventName) (events acc : List EventName) :
    x ∈ events.foldl (fun a e => addEvents a (expandEvent e)) acc ↔
      x ∈ acc ∨ ∃ e ∈ events, x ∈ expandEvent e := by
  induction events generalizing acc with
  | nil => simp
  | cons e rest ih =>
    rw [List.foldl_cons, ih, mem_addEvents]
    simp only [List.mem_cons]
    constructor
    · rintro ((hx | hx) | ⟨y, hy, hxy⟩)
      · exact Or.inl hx
      · exact Or.inr ⟨e, Or.inl rfl, hx⟩
      · exact Or.inr ⟨y, Or.inr hy, hxy⟩
    · rintro (hx | ⟨y, (rfl | hy), hxy⟩)
      · exact Or.inl (Or.inl hx)
      · exact Or.inl (Or.inr hxy)
      · exact Or.inr ⟨y, hy, hxy⟩

theorem nodup_unrollFold (events acc : List EventName) (h : acc.Nodup) :
    (events.foldl (fun a e => addEvents a (expandEvent e)) acc).Nodup := by
  induction events generalizing acc with
  | nil => exact h
  | cons e rest ih => exact ih _ (nodup_addEvents _ _ h)

/-- **C10**: `unrollEvents` returns each atomic event at most once, and its
result — as a set — is invariant under deduplicating the input, covering in
particular an input holding a group event next to one of its constituent
atomic events, or the same event twice. -/
theorem unrollEvents_deduplicates (events : List EventName) :
    (unrollEvents events).Nodup ∧
      ∀ x, x ∈ unrollEvents events ↔ x ∈ unrollEvents events.dedup := by
  constructor
  · rw [unrollEvents_eq_foldl_expand]
    exact nodup_unrollFold _ _ (by simp)
  · intro x
    rw [unrollEvents_eq_foldl_expand, unrollEvents_eq_foldl_expand,
      mem_unrollFold, mem_unrollFold]
    simp [List.mem_dedup]

/-! ## Network utility theorems -/

theorem foldl_headersSize (headers : List Header) (acc : Nat) :
    headers.foldl
        (fun a header =>
          a + (header.name.length + 2 + header.value.length + 2)) acc =
      acc +
        (headers.map
          (fun header => header.name.length + header.value.length + 4)).sum := by
  induction headers generalizing acc with
  | nil => simp
  | cons h rest ih =>
    rw [List.foldl_cons, ih]
    simp only [List.map_cons, List.sum_cons]
    omega

/-- **C5** counterexample: a single header ("A", "B") measures 6 bytes, the
length of "A: B\r\n", not 5 as the claim states. -/
theorem computeHeadersSize_single_ne_five :
    computeHeadersSize [{ name := "A", value := "B" }] = 6 ∧
      ("A: B\r\n").length = 6 ∧
      ¬ computeHeadersSize [{ name := "A", value := "B" }] = 5 := by
  refine ⟨by decide, by decide, by decide⟩

/-- **C5** (amended): `computeHeadersSize` sums `len(name) + len(value) + 4`
over the headers; the empty list yields 0, and a single header ("A", "B")
yields `len("A: B\r\n")`, which is 6. -/
theorem computeHeadersSize_spec :
    (∀ headers : List Header,
        computeHeadersSize headers =
          (headers.map
            (fun header => header.name.length + header.value.length + 4)).sum) ∧
      computeHeadersSize [] = 0 ∧
      computeHeadersSize [{ name := "A", value := "B" }] =
        ("A: B\r\n").length := by
  refine ⟨fun headers => ?_, by decide, by decide⟩
  rw [computeHeadersSize, foldl_headersSize]
  simp

/-- **C6**: structured URL-pattern matching requires every present field to
equal the URL component — hostname case-insensitively, search with the
leading question mark stripped from both sides — absent fields are
wildcards; a pattern with only `search := ""` does not match
`https://web-platform.test/?search` and a pattern with hostname
`WEB-PLATFORM.TEST` matches `https://web-platform.test/`. -/
theorem matchUrlPattern_spec :
    (∀ (p : UrlPatternStruct) (u : UrlComponents),
        matchUrlPattern p u = true ↔
          (match p.protocol with
           | none => True
           | some v => v = u.protocol) ∧
          (match p.hostname with
           | none => True
           | some v => lowerString v = lowerString u.hostname) ∧
          (match p.port with
           | none => True
           | some v => v = u.port) ∧
          (match p.pathname with
           | none => True
           | some v => v = u.pathname) ∧
          (match p.search with
           | none => True
           | some v => stripQuestionMark v = stripQuestionMark u.search)) ∧
      matchUrlPattern { search := some "" }
          ⟨"https", "web-platform.test", "", "/", "?search"⟩ = false ∧
      matchUrlPattern { hostname := some "WEB-PLATFORM.TEST" }
          ⟨"https", "web-platform.test", "", "/", ""⟩ = true := by
  refine ⟨fun p u => ?_, by decide, by decide⟩
  obtain ⟨pp, ph, ppo, ppa, ps⟩ := p
  cases pp <;> cases ph <;> cases ppo <;> cases ppa <;> cases ps <;>
    simp [matchUrlPattern, and_assoc]

/-- **C6** witness: a concrete pattern with all five fields present matches
the URL it describes. -/
theorem matchUrlPattern_spec_witness :
    matchUrlPattern
        { protocol := some "https", hostname := some "example.test",
          port := some "333", pathname := some "/test",
          search := some "?query" }
        ⟨"https", "example.test", "333", "/test", "?query"⟩ = true := by
  rw [(matchUrlPattern_spec.1 _ _)]
  refine ⟨by decide, by decide, by decide, by decide, by decide⟩

/-- **C7**: `getTiming` is `max(0, ⌊x⌋)` on finite numbers and 0 on
`undefined`, negative and NaN inputs; on the repository test inputs it
yields `getTiming(1) = 1`. -/
theorem getTiming_spec :
    (∀ q : ℚ, getTiming (some (JsNumber.finite q)) = max 0 ⌊q⌋) ∧
      getTiming none = 0 ∧
      getTiming (some JsNumber.nan) = 0 ∧
      (∀ q : ℚ, q < 0 → getTiming (some (JsNumber.finite q)) = 0) ∧
      getTiming (some (JsNumber.finite 1)) = 1 := by
  refine ⟨fun q => rfl, rfl, rfl, fun q hq => ?_, ?_⟩
  · show max 0 ⌊q⌋ = 0
    exact max_eq_left (Int.floor_nonpos hq.le)
  · show max 0 ⌊(1 : ℚ)⌋ = 1
    rw [Int.floor_one]
    rfl

/-- **C7** witness: the negative-input clause at -1, as in the repository
test `getTiming(-1) = 0`. -/
theorem getTiming_spec_witness :
    (-1 : ℚ) < 0 ∧ getTiming (some (JsNumber.finite (-1))) = 0 :=
  ⟨by decide, getTiming_spec.2.2.2.1 (-1) (by decide)⟩

/-! ## SubscriptionManager priority theorems -/

/-- **C9**: when a channel holds, for the same event, both a global
(null-context) subscription and one keyed to the emitted context's
top-level ancestor, the priority that orders the channel inside
`getChannelsSubscribedToEvent` is the minimum — the earliest minted — of
the two. -/
theorem priorityForChannel_is_min (s : BrowsingContextStorage)
    (st : SubscriptionManager) (event : EventName)
    (contextId : Option ContextId) (channel : Channel) (t : ContextId)
    (p1 p2 : Nat) (ht : findTopLevelContextId s contextId = some t)
    (h1 : subscriptionPriorityAt st channel none event = some p1)
    (h2 : subscriptionPriorityAt st channel (some t) event = some p2) :
    getEventSubscriptionPriorityForChannel s st event contextId channel =
      some (Nat.min p1 p2) := by
  unfold subscriptionPriorityAt at h1 h2
  unfold getEventSubscriptionPriorityForChannel
  cases hm : alGet st.channelToContextToEventMap channel with
  | none => rw [hm] at h1; simp at h1
  | some m =>
    rw [hm] at h1 h2
    simp only [Option.some_bind] at h1 h2
    rw [ht]
    simp only [List.filterMap_cons, List.filterMap_nil, h1, h2]
    rfl

/-- **C9** witness: priorities 5 (global) and 3 (top-level context `t`)
combine to `min 5 3 = 3`. -/
theorem priorityForChannel_is_min_witness :
    findTopLevelContextId toTStorage (some "c") = some "t" ∧
      subscriptionPriorityAt twoPriorityState (some "ch") none "e" = some 5 ∧
      subscriptionPriorityAt twoPriorityState (some "ch") (some "t") "e" =
        some 3 ∧
      getEventSubscriptionPriorityForChannel toTStorage twoPriorityState "e"
          (some "c") (some "ch") = some (Nat.min 5 3) :=
  ⟨by decide, by decide, by decide,
    priorityForChannel_is_min toTStorage twoPriorityState "e" (some "c")
      (some "ch") "t" 5 3 (by decide) (by decide) (by decide)⟩

/-- **C4** (code bug): unsubscribing the only subscription succeeds but
leaves the emptied event map in place under its context key and the
channel entry in place — the cleanup step deletes the key `event` from the
context map instead of the context id, so neither empty inner map is
pruned. -/
theorem unsubscribeAll_keeps_empty_maps :
    (unsubscribeAll flatStorage oneSubState ["log.entryAdded"] [some "ctx1"]
        (some "ch")).2 = none ∧
      (unsubscribeAll flatStorage oneSubState ["log.entryAdded"]
            [some "ctx1"] (some "ch")).1.channelToContextToEventMap =
        [(some "ch", [(some "ctx1", [])])] := by
  exact ⟨by decide, by decide⟩

/-! ## `subscribe` idempotence (C3) -/

theorem alHas_alSet_of_alHas {α β : Type} [DecidableEq α]
    (m : List (α × β)) (k a : α) (v : β) (h : alHas m a = true) :
    alHas (alSet m k v) a = true := by
  by_cases hk : k = a
  · subst hk
    exact alHas_alSet_self m k v
  · rw [alHas_alSet_other m k a v hk]
    exact h

theorem subscribeAtomicRaw_of_recorded (st : SubscriptionManager)
    (event : EventName) (ctxKey : Option ContextId) (channel : Channel)
    (h : subRecorded st channel ctxKey event = true) :
    subscribeAtomicRaw st event ctxKey channel = st := by
  unfold subRecorded at h
  unfold subscribeAtomicRaw
  simp only [h, if_true]

theorem subRecorded_subscribeAtomicRaw_self (st : SubscriptionManager)
    (event : EventName) (ctxKey : Option ContextId) (channel : Channel) :
    subRecorded (subscribeAtomicRaw st event ctxKey channel) channel ctxKey
      event = true := by
  unfold subscribeAtomicRaw
  by_cases h :
      alHas
        ((alGet ((alGet st.channelToContextToEventMap channel).getD [])
            ctxKey).getD [])
        event = true
  · simp only [h, if_true]
    unfold subRecorded
    exact h
  · simp only [h, if_false, Bool.not_eq_true] at *
    unfold subRecorded
    simp [h]

theorem subRecorded_mono (st : SubscriptionManager) (event' : EventName)
    (ctxKey' : Option ContextId) (channel' : Channel) (channel : Channel)
    (ctxKey : Option ContextId) (event : EventName)
    (h : subRecorded st channel ctxKey event = true) :
    subRecorded (subscribeAtomicRaw st event' ctxKey' channel') channel ctxKey
      event = true := by
  unfold subscribeAtomicRaw
  dsimp only
  split
  · exact h
  · unfold subRecorded at h ⊢
    dsimp only
    by_cases hch : channel' = channel
    · subst hch
      rw [alGet_alSet_self]
      simp only [Option.getD_some]
      by_cases hc : ctxKey' = ctxKey
      · subst hc
        rw [alGet_alSet_self]
        simp only [Option.getD_some]
        exact alHas_alSet_of_alHas _ _ _ _ h
      · rw [alGet_alSet_other _ _ _ _ hc]
        exact h
    · rw [alGet_alSet_other _ _ _ _ hch]
      exact h

theorem subRecorded_foldSubscribe_mono (s : BrowsingContextStorage)
    (L : List EventName) (c1 : Option ContextId) (channel' : Channel)
    (channel : Channel) (ctxKey : Option ContextId) (event : EventName)
    (st : SubscriptionManager) (h : subRecorded st channel ctxKey event = true) :
    subRecorded
      (L.foldl (fun acc x => subscribeAtomic s acc x c1 channel') st) channel
      ctxKey event = true := by
  induction L generalizing st with
  | nil => exact h
  | cons x rest ih =>
    exact ih _ (subRecorded_mono st x (findTopLevelContextId s c1) channel'
      channel ctxKey event h)

theorem subRecorded_foldSubscribe_all (s : BrowsingContextStorage)
    (L : List EventName) (c1 : Option ContextId) (channel : Channel)
    (st : SubscriptionManager) (x : EventName) (hx : x ∈ L) :
    subRecorded (L.foldl (fun acc y => subscribeAtomic s acc y c1 channel) st)
      channel (findTopLevelContextId s c1) x = true := by
  induction L generalizing st with
  | nil => cases hx
  | cons y rest ih =>
    rcases List.mem_cons.mp hx with rfl | hx'
    · exact subRecorded_foldSubscribe_mono s rest c1 channel channel
        (findTopLevelContextId s c1) x _
        (subRecorded_subscribeAtomicRaw_self st x
          (findTopLevelContextId s c1) channel)
    · exact ih _ hx' 

theorem foldSubscribe_noop (s : BrowsingContextStorage) (L : List EventName)
    (c1 : Option ContextId) (channel : Channel) (st : SubscriptionManager)
    (h : ∀ x ∈ L,
      subRecorded st channel (findTopLevelContextId s c1) x = true) :
    L.foldl (fun acc y => subscribeAtomic s acc y c1 channel) st = st := by
  induction L with
  | nil => rfl
  | cons y rest ih =>
    rw [List.foldl_cons]
    rw [show subscribeAtomic s st y c1 channel =
        subscribeAtomicRaw st y (findTopLevelContextId s c1) channel from rfl]
    rw [subscribeAtomicRaw_of_recorded st y (findTopLevelContextId s c1)
      channel (h y (List.mem_cons_self y rest))]
    exact ih (fun x hx => h x (List.mem_cons_of_mem y hx))

/-- **C3**: subscribing twice with the same event, context and channel is
indistinguishable from subscribing once — the second call changes nothing
(in particular the priority minted by the first call, and the priority
counter, are preserved). -/
theorem subscribe_idempotent (s : BrowsingContextStorage)
    (st : SubscriptionManager) (event : EventName)
    (contextId : Option ContextId) (channel : Channel) :
    subscribe s (subscribe s st event contextId channel) event contextId
      channel = subscribe s st event contextId channel := by
  unfold subscribe
  by_cases h1 : event = browsingContextAllEvents
  · simp only [h1, if_true]
    exact foldSubscribe_noop s _ _ channel _
      (fun x hx => subRecorded_foldSubscribe_all s _ _ channel st x hx)
  · by_cases h2 : event = logAllEvents
    · simp only [h1, h2, if_false, if_true]
      exact foldSubscribe_noop s _ _ channel _
        (fun x hx => subRecorded_foldSubscribe_all s _ _ channel st x hx)
    · by_cases h3 : event = networkAllEvents
      · simp only [h1, h2, h3, if_false, if_true]
        exact foldSubscribe_noop s _ _ channel _
          (fun x hx => subRecorded_foldSubscribe_all s _ _ channel st x hx)
      · by_cases h4 : event = scriptAllEvents
        · simp only [h1, h2, h3, h4, if_false, if_true]
          exact foldSubscribe_noop s _ _ channel _
            (fun x hx => subRecorded_foldSubscribe_all s _ _ channel st x hx)
        · simp only [h1, h2, h3, h4, if_false]
          exact subscribeAtomicRaw_of_recorded _ _ _ _
            (subRecorded_subscribeAtomicRaw_self st event _ channel)

/-! ## `getChannelsSubscribedToEvent` (C2) -/

theorem mem_insertByPriority (p q : Nat × Channel) (l : List (Nat × Channel)) :
    q ∈ insertByPriority p l ↔ q = p ∨ q ∈ l := by
  induction l with
  | nil => simp [insertByPriority]
  | cons r rest ih =>
    unfold insertByPriority
    split
    · simp [List.mem_cons]
    · simp only [List.mem_cons, ih]
      tauto

theorem mem_sortByPriority (q : Nat × Channel) (l : List (Nat × Channel)) :
    q ∈ sortByPriority l ↔ q ∈ l := by
  induction l with
  | nil => simp [sortByPriority]
  | cons r rest ih =>
    unfold sortByPriority
    rw [mem_insertByPriority, ih]
    simp [List.mem_cons]

theorem pairwise_insertByPriority (p : Nat × Channel)
    (l : List (Nat × Channel)) (h : l.Pairwise (fun a b => a.1 ≤ b.1)) :
    (insertByPriority p l).Pairwise (fun a b => a.1 ≤ b.1) := by
  induction l with
  | nil => simp [insertByPriority]
  | cons r rest ih =>
    rw [List.pairwise_cons] at h
    unfold insertByPriority
    split
    · rename_i hlt
      rw [List.pairwise_cons]
      refine ⟨?_, List.pairwise_cons.mpr h⟩
      intro x hx
      rcases List.mem_cons.mp hx with rfl | hx'
      · exact hlt.le
      · exact hlt.le.trans (h.1 x hx')
    · rename_i hge
      rw [List.pairwise_cons]
      refine ⟨?_, ih h.2⟩
      intro x hx
      rcases (mem_insertByPriority p x rest).mp hx with rfl | hx'
      · exact Nat.le_of_not_lt hge
      · exact h.1 x hx'

theorem pairwise_sortByPriority (l : List (Nat × Channel)) :
    (sortByPriority l).Pairwise (fun a b => a.1 ≤ b.1) := by
  induction l with
  | nil => simp [sortByPriority]
  | cons r rest ih => exact pairwise_insertByPriority r _ ih

theorem isSome_priority_iff_matches (s : BrowsingContextStorage)
    (st : SubscriptionManager) (event : EventName)
    (contextId : Option ContextId) (channel : Channel) :
    (getEventSubscriptionPriorityForChannel s st event contextId
        channel).isSome = channelMatches s st event contextId channel := by
  unfold getEventSubscriptionPriorityForChannel channelMatches
    subscriptionPriorityAt
  cases hm : alGet st.channelToContextToEventMap channel with
  | none => simp
  | some m =>
    simp only [Option.some_bind]
    cases ht : findTopLevelContextId s contextId with
    | none =>
      simp only [List.filterMap_cons, List.filterMap_nil]
      cases hf : (alGet m none).bind (fun em => alGet em event) <;> simp [hf]
    | some t =>
      simp only [List.filterMap_cons, List.filterMap_nil]
      cases hf : (alGet m none).bind (fun em => alGet em event) <;>
        cases hg : (alGet m (some t)).bind (fun em => alGet em event) <;>
          simp [hf, hg]

theorem mem_getChannels_iff (s : BrowsingContextStorage)
    (st : SubscriptionManager) (event : EventName)
    (contextId : Option ContextId) (channel : Channel) :
    channel ∈ getChannelsSubscribedToEvent s st event contextId ↔
      channelMatches s st event contextId channel = true := by
  unfold getChannelsSubscribedToEvent
  dsimp only
  rw [List.mem_map]
  constructor
  · rintro ⟨⟨pr, ch⟩, hmem, rfl⟩
    rw [mem_sortByPriority, List.mem_filterMap] at hmem
    obtain ⟨ch0, _, hch0⟩ := hmem
    rw [Option.map_eq_some'] at hch0
    obtain ⟨p0, hp0, heq⟩ := hch0
    cases heq
    rw [← isSome_priority_iff_matches, hp0]
    rfl
  · intro hmatch
    rw [← isSome_priority_iff_matches] at hmatch
    obtain ⟨pr, hpr⟩ := Option.isSome_iff_exists.mp hmatch
    refine ⟨(pr, channel), ?_, rfl⟩
    rw [mem_sortByPriority, List.mem_filterMap]
    refine ⟨channel, ?_, by rw [hpr]; rfl⟩
    apply alGet_isSome_mem_keys
    unfold getEventSubscriptionPriorityForChannel at hpr
    cases hm : alGet st.channelToContextToEventMap channel with
    | none => rw [hm] at hpr; cases hpr
    | some m => simp [hm]

theorem priorityOf_of_mem_pairs (s : BrowsingContextStorage)
    (st : SubscriptionManager) (event : EventName)
    (contextId : Option ContextId) (pr : Nat) (ch : Channel)
    (hmem : (pr, ch) ∈
      (st.channelToContextToEventMap.map Prod.fst).filterMap
        (fun channel =>
          (getEventSubscriptionPriorityForChannel s st event contextId
              channel).map (fun priority => (priority, channel)))) :
    priorityOf s st event contextId ch = pr := by
  rw [List.mem_filterMap] at hmem
  obtain ⟨ch0, _, hch0⟩ := hmem
  rw [Option.map_eq_some'] at hch0
  obtain ⟨p0, hp0, heq⟩ := hch0
  cases heq
  unfold priorityOf
  rw [hp0]
  rfl

/-- **C2**: `getChannelsSubscribedToEvent` returns exactly the channels
holding a subscription to the event whose context key is `null` (global)
or the top-level ancestor of the given context, and the returned list is
sorted ascending by the channel's subscription priority (oldest first). -/
theorem getChannels_exact_sorted (s : BrowsingContextStorage)
    (st : SubscriptionManager) (event : EventName)
    (contextId : Option ContextId) :
    (∀ channel, channel ∈ getChannelsSubscribedToEvent s st event contextId ↔
        channelMatches s st event contextId channel = true) ∧
      (getChannelsSubscribedToEvent s st event contextId).Pairwise
        (fun a b =>
          priorityOf s st event contextId a ≤
            priorityOf s st event contextId b) := by
  refine ⟨fun channel => mem_getChannels_iff s st event contextId channel, ?_⟩
  unfold getChannelsSubscribedToEvent
  dsimp only
  rw [List.pairwise_map]
  have hs := pairwise_sortByPriority
    ((st.channelToContextToEventMap.map Prod.fst).filterMap
      (fun channel =>
        (getEventSubscriptionPriorityForChannel s st event contextId
            channel).map (fun priority => (priority, channel))))
  refine hs.imp_of_mem ?_
  intro a b ha hb hle
  rw [mem_sortByPriority] at ha hb
  obtain ⟨pa, ca⟩ := a
  obtain ⟨pb, cb⟩ := b
  rw [priorityOf_of_mem_pairs s st event contextId pa ca ha,
    priorityOf_of_mem_pairs s st event contextId pb cb hb]
  exact hle

/-! ## `unsubscribeAll` all-or-nothing (C1) -/

theorem alHas_alDelete_self {α β : Type} [DecidableEq α]
    (m : List (α × β)) (a : α) : alHas (alDelete m a) a = false := by
  simp [alHas, alGet_alDelete_self]

theorem alHas_alDelete_imp {α β : Type} [DecidableEq α]
    (m : List (α × β)) (a b : α) (h : alHas (alDelete m a) b = true) :
    alHas m b = true := by
  by_cases hab : b = a
  · subst hab
    rw [alHas_alDelete_self] at h
    cases h
  · rwa [alHas, alGet_alDelete_other m a b (Ne.symm hab)] at h

theorem checkUnsubscribe_of_has (s : BrowsingContextStorage)
    (st : SubscriptionManager) (event : EventName)
    (contextId : Option ContextId) (channel : Channel)
    (h : hasSubscription s st channel event contextId = true) :
    checkUnsubscribe s st event contextId channel =
      .ok (event, findTopLevelContextId s contextId) := by
  unfold hasSubscription at h
  unfold checkUnsubscribe
  dsimp only
  cases hm : alGet st.channelToContextToEventMap channel with
  | none => simp [hm] at h
  | some m =>
    simp only [hm] at h ⊢
    cases hc : alGet m (findTopLevelContextId s contextId) with
    | none => simp [hc] at h
    | some em =>
      simp only [hc] at h ⊢
      simp [h]

theorem checkUnsubscribe_of_not_has (s : BrowsingContextStorage)
    (st : SubscriptionManager) (event : EventName)
    (contextId : Option ContextId) (channel : Channel)
    (h : hasSubscription s st channel event contextId = false) :
    checkUnsubscribe s st event contextId channel =
      .error (.invalidArgument
        (unsubscribeErrorMessage event (findTopLevelContextId s contextId))) := by
  unfold hasSubscription at h
  unfold checkUnsubscribe
  dsimp only
  cases hm : alGet st.channelToContextToEventMap channel with
  | none => simp only [hm]
  | some m =>
    simp only [hm] at h ⊢
    cases hc : alGet m (findTopLevelContextId s contextId) with
    | none => simp only [hc]
    | some em =>
      simp only [hc] at h ⊢
      simp [h]

theorem checkAll_of_all (s : BrowsingContextStorage)
    (st : SubscriptionManager) (channel : Channel)
    (pairs : List (EventName × Option ContextId))
    (h : ∀ p ∈ pairs, hasSubscription s st channel p.1 p.2 = true) :
    checkAll s st pairs channel =
      .ok (pairs.map (fun p => (p.1, findTopLevelContextId s p.2))) := by
  induction pairs with
  | nil => rfl
  | cons p rest ih =>
    unfold checkAll
    rw [checkUnsubscribe_of_has s st p.1 p.2 channel
      (h p (List.mem_cons_self p rest))]
    rw [ih (fun q hq => h q (List.mem_cons_of_mem p hq))]
    rfl

theorem checkAll_of_exists_not (s : BrowsingContextStorage)
    (st : SubscriptionManager) (channel : Channel)
    (pairs : List (EventName × Option ContextId))
    (h : ¬ ∀ p ∈ pairs, hasSubscription s st channel p.1 p.2 = true) :
    ∃ msg, checkAll s st pairs channel =
      .error (MapperError.invalidArgument msg) := by
  induction pairs with
  | nil => exact absurd (fun p hp => absurd hp (List.not_mem_nil p)) h
  | cons p rest ih =>
    unfold checkAll
    cases hp : hasSubscription s st channel p.1 p.2 with
    | false =>
      rw [checkUnsubscribe_of_not_has s st p.1 p.2 channel hp]
      exact ⟨_, rfl⟩
    | true =>
      rw [checkUnsubscribe_of_has s st p.1 p.2 channel hp]
      have hrest : ¬ ∀ q ∈ rest, hasSubscription s st channel q.1 q.2 = true := by
        intro hall
        exact h (fun q hq => by
          rcases List.mem_cons.mp hq with rfl | hq'
          · exact hp
          · exact hall q hq')
      obtain ⟨msg, hmsg⟩ := ih hrest
      rw [hmsg]
      exact ⟨msg, rfl⟩

theorem applyUnsubscribe_removes (s : BrowsingContextStorage)
    (st : SubscriptionManager) (channel : Channel) (event : EventName)
    (contextId : Option ContextId) :
    hasSubscription s
        (applyUnsubscribe st (event, findTopLevelContextId s contextId)
          channel) channel event contextId = false := by
  unfold applyUnsubscribe
  dsimp only
  cases hm : alGet st.channelToContextToEventMap channel with
  | none => simp [hasSubscription, hm]
  | some ctxMap =>
    dsimp only
    cases hc : alGet ctxMap (findTopLevelContextId s contextId) with
    | none => simp [hasSubscription, hm, hc]
    | some em =>
      dsimp only
      unfold hasSubscription
      dsimp only
      by_cases hempty : (alDelete em event).length = 0
      · rw [if_pos hempty]
        by_cases hcdel :
            (alDelete
              (alSet ctxMap (findTopLevelContextId s contextId)
                (alDelete em event)) (some event)).length = 0
        · rw [if_pos hcdel]
          simp only [alGet_alDelete_self]
        · rw [if_neg hcdel]
          simp only [alGet_alSet_self]
          by_cases hk : (some event : Option ContextId) =
              findTopLevelContextId s contextId
          · rw [← hk]
            simp only [alGet_alDelete_self]
          · rw [alGet_alDelete_other _ _ _ hk]
            simp only [alGet_alSet_self]
            exact alHas_alDelete_self em event
      · rw [if_neg hempty]
        by_cases hcdel :
            (alSet ctxMap (findTopLevelContextId s contextId)
              (alDelete em event)).length = 0
        · rw [if_pos hcdel]
          simp only [alGet_alDelete_self]
        · rw [if_neg hcdel]
          simp only [alGet_alSet_self]
          exact alHas_alDelete_self em event

theorem applyUnsubscribe_mono (s : BrowsingContextStorage)
    (st : SubscriptionManager) (d : EventName × Option ContextId)
    (ch' : Channel) (channel : Channel) (event : EventName)
    (contextId : Option ContextId)
    (h : hasSubscription s (applyUnsubscribe st d ch') channel event
      contextId = true) :
    hasSubscription s st channel event contextId = true := by
  unfold applyUnsubscribe at h
  dsimp only at h
  cases hm : alGet st.channelToContextToEventMap ch' with
  | none => simp only [hm] at h; exact h
  | some ctxMap =>
    simp only [hm] at h
    cases hc : alGet ctxMap d.2 with
    | none => simp only [hc] at h; exact h
    | some em =>
      simp only [hc] at h
      unfold hasSubscription at h ⊢
      dsimp only at h
      by_cases hch : ch' = channel
      · subst hch
        simp only [hm]
        by_cases hcdel :
            (if (alDelete em d.1).length = 0 then
              alDelete (alSet ctxMap d.2 (alDelete em d.1)) (some d.1)
            else alSet ctxMap d.2 (alDelete em d.1)).length = 0
        · rw [if_pos hcdel] at h
          simp only [alGet_alDelete_self] at h
          exact Bool.noConfusion h
        · rw [if_neg hcdel] at h
          simp only [alGet_alSet_self] at h
          by_cases hempty : (alDelete em d.1).length = 0
          · rw [if_pos hempty] at h
            by_cases hk : findTopLevelContextId s contextId = some d.1
            · rw [hk] at h
              simp only [alGet_alDelete_self] at h
              exact Bool.noConfusion h
            · rw [alGet_alDelete_other _ _ _ (fun hh => hk hh.symm)] at h
              by_cases hk2 : d.2 = findTopLevelContextId s contextId
              · rw [hk2] at h
                simp only [alGet_alSet_self] at h
                rw [← hk2]
                simp only [hc]
                exact alHas_alDelete_imp em d.1 event h
              · rwa [alGet_alSet_other _ _ _ _ hk2] at h
          · rw [if_neg hempty] at h
            by_cases hk2 : d.2 = findTopLevelContextId s contextId
            · rw [hk2] at h
              simp only [alGet_alSet_self] at h
              rw [← hk2]
              simp only [hc]
              exact alHas_alDelete_imp em d.1 event h
            · rwa [alGet_alSet_other _ _ _ _ hk2] at h
      · by_cases hcdel :
            (if (alDelete em d.1).length = 0 then
              alDelete (alSet ctxMap d.2 (alDelete em d.1)) (some d.1)
            else alSet ctxMap d.2 (alDelete em d.1)).length = 0
        · rw [if_pos hcdel, alGet_alDelete_other _ _ _ hch,
            alGet_alSet_other _ _ _ _ hch] at h
          exact h
        · rw [if_neg hcdel, alGet_alSet_other _ _ _ _ hch] at h
          exact h

theorem fold_apply_keeps_absent (s : BrowsingContextStorage)
    (channel ch' : Channel) (L : List (EventName × Option ContextId))
    (st : SubscriptionManager) (event : EventName)
    (contextId : Option ContextId)
    (h : hasSubscription s st channel event contextId = false) :
    hasSubscription s
        (L.foldl (fun acc d => applyUnsubscribe acc d ch') st) channel event
        contextId = false := by
  induction L generalizing st with
  | nil => exact h
  | cons d rest ih =>
    rw [List.foldl_cons]
    refine ih _ ?_
    cases hpost : hasSubscription s (applyUnsubscribe st d ch') channel event
        contextId with
    | false => rfl
    | true =>
      rw [applyUnsubscribe_mono s st d ch' channel event contextId hpost] at h
      cases h

theorem fold_apply_removes (s : BrowsingContextStorage) (channel : Channel)
    (L : List (EventName × Option ContextId)) (st : SubscriptionManager)
    (event : EventName) (contextId : Option ContextId)
    (hd : (event, findTopLevelContextId s contextId) ∈ L) :
    hasSubscription s
        (L.foldl (fun acc d => applyUnsubscribe acc d channel) st) channel
        event contextId = false := by
  induction L generalizing st with
  | nil => cases hd
  | cons d rest ih =>
    rw [List.foldl_cons]
    rcases List.mem_cons.mp hd with heq | hd'
    · rw [← heq]
      exact fold_apply_keeps_absent s channel channel rest _ event contextId
        (heq ▸ applyUnsubscribe_removes s st channel event contextId)
    · exact ih _ hd' 

/-- **C1** (amended): provided every non-null context in the list is known
to the browsing-context storage (otherwise the call fails with
`no such frame` before any validation), `unsubscribeAll` is
all-or-nothing: if every (event, context) pair of the cartesian product of
the unrolled events and the contexts has a subscription under the channel,
the call succeeds and removes them all; otherwise it fails with
`invalid argument` and the store is exactly the store before the call. -/
theorem unsubscribeAll_allOrNothing (s : BrowsingContextStorage)
    (st : SubscriptionManager) (events : List EventName)
    (contextIds : List (Option ContextId)) (channel : Channel)
    (hctx : firstUnknownContext s contextIds = none) :
    if (cartesianProduct (unrollEvents events) contextIds).all
        (fun p => hasSubscription s st channel p.1 p.2) = true then
      (unsubscribeAll s st events contextIds channel).2 = none ∧
        (cartesianProduct (unrollEvents events) contextIds).all
          (fun p =>
            !hasSubscription s
              (unsubscribeAll s st events contextIds channel).1 channel p.1
              p.2) = true
    else
      (unsubscribeAll s st events contextIds channel).1 = st ∧
        isInvalidArgument
          (unsubscribeAll s st events contextIds channel).2 = true := by
  have hunf : unsubscribeAll s st events contextIds channel =
      match checkAll s st (cartesianProduct (unrollEvents events) contextIds)
        channel with
      | .error e => (st, some e)
      | .ok ds =>
        (ds.foldl (fun acc d => applyUnsubscribe acc d channel) st, none) := by
    unfold unsubscribeAll
    rw [hctx]
  by_cases hall : (cartesianProduct (unrollEvents events) contextIds).all
      (fun p => hasSubscription s st channel p.1 p.2) = true
  · rw [if_pos hall]
    rw [List.all_eq_true] at hall
    have hck := checkAll_of_all s st channel
      (cartesianProduct (unrollEvents events) contextIds) hall
    rw [hck] at hunf
    rw [hunf]
    refine ⟨rfl, ?_⟩
    rw [List.all_eq_true]
    intro p hp
    dsimp only
    rw [Bool.not_eq_true']
    exact fold_apply_removes s channel _ st p.1 p.2
      (List.mem_map.mpr ⟨p, hp, rfl⟩)
  · rw [if_neg hall]
    have hnot : ¬ ∀ p ∈ cartesianProduct (unrollEvents events) contextIds,
        hasSubscription s st channel p.1 p.2 = true := by
      intro hforall
      exact hall (List.all_eq_true.mpr hforall)
    obtain ⟨msg, hmsg⟩ := checkAll_of_exists_not s st channel
      (cartesianProduct (unrollEvents events) contextIds) hnot
    rw [hmsg] at hunf
    rw [hunf]
    exact ⟨rfl, rfl⟩

/-- **C1** witness: one valid pair; the call succeeds and removes it. -/
theorem unsubscribeAll_allOrNothing_witness :
    firstUnknownContext flatStorage [some "ctx1"] = none ∧
      (if (cartesianProduct (unrollEvents ["log.entryAdded"])
            [some "ctx1"]).all
          (fun p =>
            hasSubscription flatStorage oneSubState (some "ch") p.1 p.2) =
          true then
        (unsubscribeAll flatStorage oneSubState ["log.entryAdded"]
            [some "ctx1"] (some "ch")).2 = none ∧
          (cartesianProduct (unrollEvents ["log.entryAdded"])
              [some "ctx1"]).all
            (fun p =>
              !hasSubscription flatStorage
                (unsubscribeAll flatStorage oneSubState ["log.entryAdded"]
                  [some "ctx1"] (some "ch")).1 (some "ch") p.1 p.2) = true
      else
        (unsubscribeAll flatStorage oneSubState ["log.entryAdded"]
            [some "ctx1"] (some "ch")).1 = oneSubState ∧
          isInvalidArgument
            (unsubscribeAll flatStorage oneSubState ["log.entryAdded"]
              [some "ctx1"] (some "ch")).2 = true) :=
  ⟨by decide,
    unsubscribeAll_allOrNothing flatStorage oneSubState ["log.entryAdded"]
      [some "ctx1"] (some "ch") (by decide)⟩

/-- **C1** counterexample: the single pair is subscribed, yet the call —
its context unknown to the storage — fails with `no such frame` instead of
removing the pair (or raising `invalid argument`), so the claim as stated,
quantifying over every call, is false. -/
theorem unsubscribeAll_unknownContext_counterexample :
    hasSubscription emptyStorage ghostSubState (some "ch") "log.entryAdded"
        (some "ghost") = true ∧
      (unsubscribeAll emptyStorage ghostSubState ["log.entryAdded"]
          [some "ghost"] (some "ch")).2 =
        some (MapperError.noSuchFrame "ghost") ∧
      hasSubscription emptyStorage
          (unsubscribeAll emptyStorage ghostSubState ["log.entryAdded"]
            [some "ghost"] (some "ch")).1 (some "ch") "log.entryAdded"
          (some "ghost") = true :=
  ⟨by decide, by decide, by decide⟩

/-! ## Log-message formatter errors (C8) -/

theorem countSpecifiers_lit (s : String) (rest : List FormatToken) :
    countSpecifiers (FormatToken.lit s :: rest) = countSpecifiers rest := by
  simp [countSpecifiers, List.countP_cons]

theorem countSpecifiers_spec (c : Char) (rest : List FormatToken) :
    countSpecifiers (FormatToken.spec c :: rest) = countSpecifiers rest + 1 := by
  simp [countSpecifiers, List.countP_cons]

theorem formatLoop_less (allText : String) (tokens : List FormatToken)
    (values : List RemoteValue) (output : String)
    (h : values.length < countSpecifiers tokens) :
    formatLoop allText tokens values output =
      .error ("Less value is provided: \"" ++ allText ++ "\"") := by
  induction tokens generalizing values output with
  | nil => simp [countSpecifiers] at h
  | cons t rest ih =>
    cases t with
    | lit s =>
      rw [countSpecifiers_lit] at h
      exact ih values (output ++ s) h
    | spec c =>
      cases values with
      | nil => rfl
      | cons v vs =>
        rw [countSpecifiers_spec] at h
        simp only [List.length_cons] at h
        exact ih vs _ (Nat.lt_of_succ_lt_succ h)

theorem formatLoop_more (allText : String) (tokens : List FormatToken)
    (values : List RemoteValue) (output : String)
    (h : countSpecifiers tokens < values.length) :
    formatLoop allText tokens values output =
      .error ("More value is provided: \"" ++ allText ++ "\"") := by
  induction tokens generalizing values output with
  | nil =>
    cases values with
    | nil => simp at h
    | cons v vs => rfl
  | cons t rest ih =>
    cases t with
    | lit s =>
      rw [countSpecifiers_lit] at h
      exact ih values (output ++ s) h
    | spec c =>
      cases values with
      | nil =>
        rw [countSpecifiers_spec] at h
        exact absurd h (by simp)
      | cons v vs =>
        rw [countSpecifiers_spec] at h
        simp only [List.length_cons] at h
        exact ih vs _ (Nat.lt_of_succ_lt_succ h)

/-- **C8** (amended): when the specifiers outnumber the values the
formatter throws `Less value is provided: ` and when values remain it
throws `More value is provided: `, in both cases followed by the original
arguments rendered as text — the raw (unformatted) format string and all
provided values, space-separated and double-quoted — not any partially or
fully formatted text. -/
theorem logMessageFormatter_errors (first : String)
    (values : List RemoteValue) :
    (values.length < countSpecifiers (tokenizeFormat [] first.toList) →
        logMessageFormatter (RemoteValue.str first :: values) =
          .error ("Less value is provided: \"" ++
            getRemoteValuesText (RemoteValue.str first :: values) ++ "\"")) ∧
      (countSpecifiers (tokenizeFormat [] first.toList) < values.length →
        logMessageFormatter (RemoteValue.str first :: values) =
          .error ("More value is provided: \"" ++
            getRemoteValuesText (RemoteValue.str first :: values) ++ "\"")) := by
  constructor
  · intro h
    unfold logMessageFormatter
    exact formatLoop_less _ _ _ _ h
  · intro h
    unfold logMessageFormatter
    exact formatLoop_more _ _ _ _ h

/-- **C8** witness: the repository's "less values" test — format
`"test string %i %i string test"` with the single value 1 throws with the
raw arguments quoted, exactly as `logHelper.spec.ts` expects. -/
theorem logMessageFormatter_errors_witness :
    logMessageFormatter
        [RemoteValue.str "test string %i %i string test", RemoteValue.num 1] =
      .error "Less value is provided: \"test string %i %i string test 1\"" := by
  rw [(logMessageFormatter_errors "test string %i %i string test"
    [RemoteValue.num 1]).1 (by decide)]
  rfl

/-- **C8** counterexample: on the repository's "more values" test input the
thrown message quotes the raw format string with all values appended
(`"test string %i string test 1 2"`), not the formatted text with only the
unconsumed values appended (`"test string 1 string test 2"`) as the claim
describes. -/
theorem logMessageFormatter_more_counterexample :
    logMessageFormatter [RemoteValue.str "test string %i string test",
        RemoteValue.num 1, RemoteValue.num 2] =
      .error "More value is provided: \"test string %i string test 1 2\"" ∧
      ¬ logMessageFormatter [RemoteValue.str "test string %i string test",
          RemoteValue.num 1, RemoteValue.num 2] =
        .error "More value is provided: \"test string 1 string test 2\"" := by
  have hpos : logMessageFormatter [RemoteValue.str "test string %i string test",
      RemoteValue.num 1, RemoteValue.num 2] =
      .error "More value is provided: \"test string %i string test 1 2\"" := rfl
  refine ⟨hpos, ?_⟩
  rw [hpos]
  intro h
  exact absurd (Except.error.inj h) (by decide)

end ChromiumBidi
